import Mathlib

/-
Shallow embedding of the concurrent traffic-light simulation core
(classes MessageQueue, TrafficLight, WaitingVehicles, Intersection from
src/TrafficLight.h, src/TrafficLight.cpp and src/Intersection.cpp).

Blocking operations are modelled as functions returning `Option`:
`none` means the call blocks (does not return) on the given inputs.
Each loop of the C++ code that consumes one element of a finite buffer
per iteration is modelled by structural recursion on that buffer; a loop
that would wait for values that are never delivered yields `none`.
-/

namespace TrafficSim

/-- enum class TrafficLightPhase { red, green } from TrafficLight.h. -/
inductive TrafficLightPhase
  | red
  | green
deriving DecidableEq, Repr

/-- template<typename T> class MessageQueue (TrafficLight.h): the internal
state is the std::deque<T> _queue; the mutex and condition variable protect
it but carry no further state of their own. -/
structure MessageQueue (T : Type) where
  queue : List T
deriving DecidableEq, Repr

namespace MessageQueue

/-- MessageQueue::send (TrafficLight.h, lines 52-65): push_back(msg). -/
def send {T : Type} (q : MessageQueue T) (msg : T) : MessageQueue T :=
  ⟨q.queue ++ [msg]⟩

/-- MessageQueue::receive (TrafficLight.h, lines 81-104): wait until the
queue is non-empty, then pop and return the front element.  On an empty
queue with no further send the call blocks: `none`. -/
def receive {T : Type} (q : MessageQueue T) : Option (T × MessageQueue T) :=
  match q.queue with
  | [] => none
  | m :: rest => some (m, ⟨rest⟩)

/-- Sending a list of messages in order (repeated send). -/
def sendAll {T : Type} (q : MessageQueue T) (msgs : List T) : MessageQueue T :=
  msgs.foldl send q

/-- Receiving until the queue is empty, collecting the values in order. -/
def drain {T : Type} : MessageQueue T → List T
  | ⟨[]⟩ => []
  | ⟨m :: rest⟩ => m :: drain ⟨rest⟩

end MessageQueue

/-- class TrafficLight (TrafficLight.h): the private members _currentPhase
and _messageQueue. -/
structure TrafficLight where
  currentPhase : TrafficLightPhase
  messageQueue : MessageQueue TrafficLightPhase
deriving DecidableEq, Repr

namespace TrafficLight

/-- TrafficLight::TrafficLight (TrafficLight.cpp, lines 14-18):
_currentPhase = red. -/
def init : TrafficLight :=
  ⟨TrafficLightPhase.red, ⟨[]⟩⟩

/-- TrafficLight::getCurrentPhase (TrafficLight.cpp, lines 26-29). -/
def getCurrentPhase (tl : TrafficLight) : TrafficLightPhase :=
  tl.currentPhase

/-- The receive loop of TrafficLight::waitForGreen (TrafficLight.cpp,
lines 48-65) over the sequence of values the channel delivers: each
iteration performs one receive; if the value is green the loop returns
(yielding the unconsumed remainder), otherwise it loops.  When the buffer
runs out without a green the loop blocks on the next receive: `none`. -/
def waitForGreenAux : List TrafficLightPhase → Option (List TrafficLightPhase)
  | [] => none
  | p :: rest =>
    if p = TrafficLightPhase.green then some rest else waitForGreenAux rest

/-- TrafficLight::waitForGreen (TrafficLight.cpp, lines 48-65): it enters
the receive loop directly, with no prior inspection of _currentPhase.
Returns the light with the consumed values removed from the channel, or
`none` when the call blocks. -/
def waitForGreen (tl : TrafficLight) : Option TrafficLight :=
  match waitForGreenAux tl.messageQueue.queue with
  | none => none
  | some rest => some { tl with messageQueue := ⟨rest⟩ }

end TrafficLight

/-- class WaitingVehicles (Intersection.cpp, lines 13-42): the two parallel
vectors _vehicles (modelled by vehicle id) and _promises (modelled by
ticket id); the mutex serializes the operations. -/
structure WaitingVehicles where
  vehicles : List Nat
  promises : List Nat
deriving DecidableEq, Repr

namespace WaitingVehicles

/-- The empty queue (initial state of the member _waitingVehicles). -/
def empty : WaitingVehicles := ⟨[], []⟩

/-- WaitingVehicles::getSize (Intersection.cpp, lines 13-18):
returns _vehicles.size(). -/
def getSize (w : WaitingVehicles) : Nat :=
  w.vehicles.length

/-- WaitingVehicles::pushBack (Intersection.cpp, lines 20-26): push_back
the vehicle and its promise onto the two vectors. -/
def pushBack (w : WaitingVehicles) (vehicle ticket : Nat) : WaitingVehicles :=
  ⟨w.vehicles ++ [vehicle], w.promises ++ [ticket]⟩

/-- WaitingVehicles::permitEntryToFirstInQueue (Intersection.cpp, lines
28-42): set_value on the front promise, then erase the front of both
vectors.  Returns the granted entry (vehicle, fulfilled ticket) and the
remaining queue.  On an empty queue the C++ dereferences begin() of an
empty vector (undefined); modelled as `none`. -/
def permitEntryToFirstInQueue (w : WaitingVehicles) :
    Option ((Nat × Nat) × WaitingVehicles) :=
  match w.vehicles, w.promises with
  | v :: vs, p :: ps => some ((v, p), ⟨vs, ps⟩)
  | _, _ => none

/-- Enqueueing a list of (vehicle, ticket) entries in order into the empty
queue (repeated pushBack). -/
def enqueueAll (entries : List (Nat × Nat)) : WaitingVehicles :=
  entries.foldl (fun w e => w.pushBack e.1 e.2) empty

/-- Performing n successive grants, collecting the granted entries in
order; stops early if a grant hits an empty queue. -/
def grantSeq : WaitingVehicles → Nat → List (Nat × Nat)
  | _, 0 => []
  | w, n + 1 =>
    match w.permitEntryToFirstInQueue with
    | none => []
    | some (e, rest) => e :: grantSeq rest n

end WaitingVehicles

/-- One operation on a WaitingVehicles queue: a pushBack with the given
vehicle and ticket, or a permitEntryToFirstInQueue. -/
inductive WVOp
  | push (vehicle ticket : Nat)
  | permit
deriving DecidableEq, Repr

namespace WVOp

/-- Applying one operation to the queue state.  A permit on an empty queue
is undefined in the C++; the modelled no-op branch is excluded by the
legality predicate below. -/
def apply (w : WaitingVehicles) : WVOp → WaitingVehicles
  | push v t => w.pushBack v t
  | permit =>
    match w.permitEntryToFirstInQueue with
    | some (_, rest) => rest
    | none => w

/-- Applying a sequence of operations from left to right. -/
def applyAll (w : WaitingVehicles) (ops : List WVOp) : WaitingVehicles :=
  ops.foldl apply w

/-- A sequence of operations is legal from a state when every permit is
applied to a non-empty queue (the caller-side precondition). -/
def legalFrom : WaitingVehicles → List WVOp → Bool
  | _, [] => true
  | w, op :: ops =>
    (match op with
     | permit => decide (0 < w.getSize)
     | push _ _ => true) && legalFrom (apply w op) ops

/-- The (vehicle, ticket) pairs pushed by a sequence of operations, in
order. -/
def pushedPairs : List WVOp → List (Nat × Nat)
  | [] => []
  | push v t :: ops => (v, t) :: pushedPairs ops
  | permit :: ops => pushedPairs ops

/-- The number of permit operations in a sequence. -/
def permitCount : List WVOp → Nat
  | [] => 0
  | push _ _ :: ops => permitCount ops
  | permit :: ops => permitCount ops + 1

end WVOp

/-- The state of an Intersection relevant to the dispatch loop
(Intersection.cpp): the member _waitingVehicles, the flag _isBlocked, and
a history variable recording the granted entries in order. -/
structure IntersectionState where
  waitingVehicles : WaitingVehicles
  isBlocked : Bool
  grants : List (Nat × Nat)
deriving DecidableEq, Repr

namespace IntersectionState

/-- One iteration of the body of Intersection::processVehicleQueue
(Intersection.cpp, lines 148-169): if at least one vehicle is waiting and
the intersection is not blocked, setIsBlocked(true) and
permitEntryToFirstInQueue; otherwise the iteration changes nothing. -/
def dispatchStep (s : IntersectionState) : IntersectionState :=
  if 0 < s.waitingVehicles.getSize ∧ s.isBlocked = false then
    match s.waitingVehicles.permitEntryToFirstInQueue with
    | some (e, rest) => ⟨rest, true, s.grants ++ [e]⟩
    | none => ⟨s.waitingVehicles, true, s.grants⟩
  else s

/-- Intersection::vehicleHasLeft (Intersection.cpp, lines 116-122):
setIsBlocked(false). -/
def vehicleHasLeft (s : IntersectionState) : IntersectionState :=
  { s with isBlocked := false }

/-- An initial state as produced by Intersection::Intersection
(Intersection.cpp, lines 46-50): _isBlocked = false, no grants yet, and a
well-formed queue (the two vectors of equal length). -/
def Init (s : IntersectionState) : Prop :=
  s.isBlocked = false ∧ s.grants = [] ∧
    s.waitingVehicles.vehicles.length = s.waitingVehicles.promises.length

instance : DecidablePred Init := fun s => by
  unfold Init; infer_instance

end IntersectionState

/-- The step relation of claim C2: a step is one dispatch-loop iteration
or one departure notification. -/
inductive IStep : IntersectionState → IntersectionState → Prop
  | dispatch (s : IntersectionState) : IStep s s.dispatchStep
  | depart (s : IntersectionState) : IStep s s.vehicleHasLeft

/-- Reachability under IStep. -/
def IReach : IntersectionState → IntersectionState → Prop :=
  Relation.ReflTransGen IStep

/-- A street as seen by the intersection code: only getID is consulted
(Intersection.cpp, line 63); the id is the object identity assigned by the
TrafficObject base class. -/
structure Street where
  id : Nat
deriving DecidableEq, Repr

/-- The street connections of an Intersection: the member _streets. -/
structure IntersectionStreets where
  streets : List Street
deriving DecidableEq, Repr

namespace IntersectionStreets

/-- Intersection::addStreet (Intersection.cpp, lines 52-55):
_streets.push_back(street). -/
def addStreet (inter : IntersectionStreets) (street : Street) :
    IntersectionStreets :=
  ⟨inter.streets ++ [street]⟩

/-- Intersection::queryStreets (Intersection.cpp, lines 57-70): loop over
_streets, pushing back every street whose ID differs from the incoming
street's ID. -/
def queryStreets (inter : IntersectionStreets) (incoming : Street) :
    List Street :=
  inter.streets.foldl
    (fun outgoings it =>
      if incoming.id ≠ it.id then outgoings ++ [it] else outgoings)
    []

end IntersectionStreets

/-- The observable events of one Intersection::addVehicleToQueue call, in
program order. -/
inductive AdmissionEvent
  | enqueued
  | ticketGranted
  | phaseObserved (p : TrafficLightPhase)
  | greenReceived
deriving DecidableEq, Repr

/-- Intersection::addVehicleToQueue (Intersection.cpp, lines 77-114):
pushBack the vehicle with a fresh promise, wait on the future, then check
getCurrentPhase() and call waitForGreen() only when it is red.
`ticketFulfilled` says whether the dispatch loop ever fulfills this call's
ticket; when it does not, the future wait blocks forever.  Returns the
queue after the unconditional pushBack, and — when the call returns — the
event trace and the resulting traffic-light state. -/
def addVehicleToQueue (wv : WaitingVehicles) (vehicle ticket : Nat)
    (ticketFulfilled : Bool) (tl : TrafficLight) :
    WaitingVehicles × Option (List AdmissionEvent × TrafficLight) :=
  let wv2 := wv.pushBack vehicle ticket
  if ticketFulfilled = false then
    (wv2, none)
  else
    let checked : List AdmissionEvent :=
      [AdmissionEvent.enqueued, AdmissionEvent.ticketGranted,
       AdmissionEvent.phaseObserved tl.getCurrentPhase]
    if tl.getCurrentPhase = TrafficLightPhase.red then
      match tl.waitForGreen with
      | none => (wv2, none)
      | some tl2 => (wv2, some (checked ++ [AdmissionEvent.greenReceived], tl2))
    else
      (wv2, some (checked, tl))

/-- Toggling of _currentPhase in TrafficLight::cycleThroughPhases
(TrafficLight.cpp, lines 166-173): red becomes green, green becomes red. -/
def togglePhase : TrafficLightPhase → TrafficLightPhase
  | TrafficLightPhase.red => TrafficLightPhase.green
  | TrafficLightPhase.green => TrafficLightPhase.red

/-- The draw from uniform_int_distribution<int>(4000, 6000)
(TrafficLight.cpp, line 117) applied to the engine value r: a value in
[4000, 6000] determined by the engine state. -/
def drawDuration (r : Nat) : Nat :=
  4000 + r % 2001

/-- The loop state of TrafficLight::cycleThroughPhases (TrafficLight.cpp,
lines 106-194): the current phase, the message queue written by send, the
current random cycleDuration, and the lastUpdate time point (in ms). -/
structure LightState where
  currentPhase : TrafficLightPhase
  messageQueue : MessageQueue TrafficLightPhase
  cycleDuration : Nat
  lastUpdate : Nat
deriving DecidableEq, Repr

namespace LightState

/-- The state on entry to the while loop (TrafficLight.cpp, lines
115-129): phase red from the constructor, empty queue, an initial random
duration drawn from the engine value r0, stopwatch started at t0. -/
def start (r0 t0 : Nat) : LightState :=
  ⟨TrafficLightPhase.red, ⟨[]⟩, drawDuration r0, t0⟩

/-- One iteration of the while loop of cycleThroughPhases (TrafficLight.cpp,
lines 134-193) at current time `now`, with `r` the engine value consumed if
a new duration is drawn: if timeSinceLastUpdate ≥ cycleDuration, toggle the
phase, send the new phase, reset lastUpdate and redraw the duration;
otherwise nothing changes. -/
def cycleIteration (st : LightState) (now r : Nat) : LightState :=
  let timeSinceLastUpdate := now - st.lastUpdate
  if st.cycleDuration ≤ timeSinceLastUpdate then
    let newPhase := togglePhase st.currentPhase
    ⟨newPhase, st.messageQueue.send newPhase, drawDuration r, now⟩
  else
    st

/-- Running the loop over a list of (now, engine value) observations. -/
def run (st : LightState) : List (Nat × Nat) → LightState
  | [] => st
  | (now, r) :: rest => run (st.cycleIteration now r) rest

/-- The strictly alternating phase sequence of length n starting with
green: green, red, green, ... -/
def altSeq : Nat → List TrafficLightPhase
  | 0 => []
  | n + 1 => altSeq n ++ [if n % 2 = 0 then TrafficLightPhase.green else TrafficLightPhase.red]

end LightState

/-! ### Helper lemmas -/

theorem sendAll_queue {T : Type} (msgs : List T) (q : MessageQueue T) :
    (q.sendAll msgs).queue = q.queue ++ msgs := by
  induction msgs generalizing q with
  | nil => simp [MessageQueue.sendAll]
  | cons m ms ih =>
    simp [MessageQueue.sendAll, MessageQueue.send] at ih ⊢
    rw [ih]
    simp

theorem drain_eq_queue {T : Type} (q : MessageQueue T) : q.drain = q.queue := by
  obtain ⟨l⟩ := q
  induction l with
  | nil => simp [MessageQueue.drain]
  | cons m rest ih => simp [MessageQueue.drain, ih]

theorem waitForGreenAux_none_of_no_green (ms : List TrafficLightPhase)
    (h : TrafficLightPhase.green ∉ ms) :
    TrafficLight.waitForGreenAux ms = none := by
  induction ms with
  | nil => rfl
  | cons p rest ih =>
    simp only [List.mem_cons, not_or] at h
    simp only [TrafficLight.waitForGreenAux, if_neg (Ne.symm h.1)]
    exact ih h.2

theorem waitForGreenAux_first_green (reds rest : List TrafficLightPhase)
    (h : ∀ p ∈ reds, p = TrafficLightPhase.red) :
    TrafficLight.waitForGreenAux (reds ++ TrafficLightPhase.green :: rest)
      = some rest := by
  induction reds with
  | nil => simp [TrafficLight.waitForGreenAux]
  | cons p ps ih =>
    have hp : p = TrafficLightPhase.red := h p (by simp)
    subst hp
    simp only [List.cons_append, TrafficLight.waitForGreenAux,
      reduceCtorEq, if_false]
    exact ih fun q hq => h q (by simp [hq])

theorem waitForGreenAux_green_mem (ms rest : List TrafficLightPhase)
    (h : TrafficLight.waitForGreenAux ms = some rest) :
    TrafficLightPhase.green ∈ ms := by
  by_contra hmem
  rw [waitForGreenAux_none_of_no_green ms hmem] at h
  exact Option.noConfusion h

theorem foldl_select_eq_filter {α : Type} (p : α → Prop) [DecidablePred p]
    (l acc : List α) :
    l.foldl (fun out it => if p it then out ++ [it] else out) acc
      = acc ++ l.filter (fun it => decide (p it)) := by
  induction l generalizing acc with
  | nil => simp
  | cons a l ih =>
    by_cases h : p a
    · simp [List.filter_cons, h, ih]
    · simp [List.filter_cons, h, ih]

theorem street_eq_of_id_eq (s t : Street) (h : s.id = t.id) : s = t := by
  obtain ⟨i⟩ := s
  obtain ⟨j⟩ := t
  simpa using h

theorem queryStreets_eq_filter (inter : IntersectionStreets) (incoming : Street) :
    inter.queryStreets incoming
      = inter.streets.filter (fun it => decide (incoming.id ≠ it.id)) := by
  unfold IntersectionStreets.queryStreets
  rw [foldl_select_eq_filter]
  simp

/-! ### Claims -/

/-- C6: MessageQueue::send appends msg to the back of the internal deque
and never fails (it is a total function on every channel state);
MessageQueue::receive on a non-empty channel removes and returns the
oldest (front) value; consequently draining a channel filled by a
sequence of sends yields exactly the sent values in send order, each value
consumed exactly once. -/
theorem C6_message_queue_fifo :
    (∀ (T : Type) (q : MessageQueue T) (m : T),
       (q.send m).queue = q.queue ++ [m])
    ∧ (∀ (T : Type) (q : MessageQueue T) (m : T) (rest : List T),
        q.queue = m :: rest → q.receive = some (m, ⟨rest⟩))
    ∧ (∀ (T : Type) (msgs : List T),
        (MessageQueue.sendAll ⟨[]⟩ msgs).drain = msgs) := by
  refine ⟨fun T q m => rfl, fun T q m rest h => ?_, fun T msgs => ?_⟩
  · obtain ⟨l⟩ := q
    simp only [MessageQueue.queue] at h
    subst h
    rfl
  · rw [drain_eq_queue, sendAll_queue]
    rfl

/-- C6 witness: the receive conjunct applied to the concrete channel
holding [3, 4]. -/
theorem C6_message_queue_fifo_witness :
    (MessageQueue.mk [3, 4] : MessageQueue Nat).queue = 3 :: [4]
    ∧ (MessageQueue.mk [3, 4] : MessageQueue Nat).receive
        = some (3, ⟨[4]⟩) :=
  ⟨rfl, C6_message_queue_fifo.2.1 Nat ⟨[3, 4]⟩ 3 [4] rfl⟩

/-- C5: the receive loop of TrafficLight::waitForGreen discards every red
value and returns exactly when the first green value is received (leaving
the later values unconsumed); on a delivered sequence containing no green
(only reds) it never returns. -/
theorem C5_wait_for_green_first_green :
    (∀ ms : List TrafficLightPhase, TrafficLightPhase.green ∉ ms →
       TrafficLight.waitForGreenAux ms = none)
    ∧ (∀ reds rest : List TrafficLightPhase,
        (∀ p ∈ reds, p = TrafficLightPhase.red) →
        TrafficLight.waitForGreenAux (reds ++ TrafficLightPhase.green :: rest)
          = some rest) :=
  ⟨waitForGreenAux_none_of_no_green, waitForGreenAux_first_green⟩

/-- C5 witness: on the concrete delivered sequence [red, red, green, red]
the loop returns right at the green, leaving [red]; and on [red, red]
it never returns. -/
theorem C5_wait_for_green_first_green_witness :
    TrafficLight.waitForGreenAux
        ([TrafficLightPhase.red, TrafficLightPhase.red]
          ++ TrafficLightPhase.green :: [TrafficLightPhase.red])
      = some [TrafficLightPhase.red]
    ∧ TrafficLight.waitForGreenAux
        [TrafficLightPhase.red, TrafficLightPhase.red] = none :=
  ⟨C5_wait_for_green_first_green.2
      [TrafficLightPhase.red, TrafficLightPhase.red] [TrafficLightPhase.red]
      (by decide),
   C5_wait_for_green_first_green.1
      [TrafficLightPhase.red, TrafficLightPhase.red] (by decide)⟩

/-- C4 counterexample: TrafficLight::waitForGreen does NOT check
getCurrentPhase() first.  On the concrete light whose current phase is
green and whose channel is empty, the claim predicts an immediate return
with the channel untouched, but the code enters receive() and blocks
(modelled result `none`). -/
theorem C4_counterexample :
    (TrafficLight.mk TrafficLightPhase.green ⟨[]⟩).getCurrentPhase
        = TrafficLightPhase.green
    ∧ TrafficLight.waitForGreen
        (TrafficLight.mk TrafficLightPhase.green ⟨[]⟩) ≠
        some (TrafficLight.mk TrafficLightPhase.green ⟨[]⟩)
    ∧ TrafficLight.waitForGreen
        (TrafficLight.mk TrafficLightPhase.green ⟨[]⟩) = none := by
  refine ⟨rfl, ?_, rfl⟩
  intro h
  exact Option.noConfusion h

/-- C4 amended: the check-then-block pattern lives in the caller,
Intersection::addVehicleToQueue: it calls getCurrentPhase() and invokes
waitForGreen() only when the phase is red, so when the phase is already
green the call returns with no channel interaction (light state returned
unchanged); waitForGreen() itself unconditionally receives, so with a
green current phase and an empty channel it blocks. -/
theorem C4_check_in_caller :
    (∀ (wv : WaitingVehicles) (v t : Nat) (tl : TrafficLight),
       tl.getCurrentPhase = TrafficLightPhase.green →
       addVehicleToQueue wv v t true tl
         = (wv.pushBack v t,
            some ([AdmissionEvent.enqueued, AdmissionEvent.ticketGranted,
                   AdmissionEvent.phaseObserved TrafficLightPhase.green], tl)))
    ∧ (∀ tl : TrafficLight,
        tl.currentPhase = TrafficLightPhase.green →
        tl.messageQueue.queue = [] →
        tl.waitForGreen = none) := by
  constructor
  · intro wv v t tl h
    simp [addVehicleToQueue, h]
  · intro tl _ hq
    simp [TrafficLight.waitForGreen, hq, TrafficLight.waitForGreenAux]

/-- C4 amended witness: the concrete light with green phase and channel
[red]: addVehicleToQueue returns without touching the channel, while
waitForGreen on green phase with empty channel blocks. -/
theorem C4_check_in_caller_witness :
    addVehicleToQueue WaitingVehicles.empty 1 2 true
        (TrafficLight.mk TrafficLightPhase.green ⟨[TrafficLightPhase.red]⟩)
      = (WaitingVehicles.empty.pushBack 1 2,
         some ([AdmissionEvent.enqueued, AdmissionEvent.ticketGranted,
                AdmissionEvent.phaseObserved TrafficLightPhase.green],
               TrafficLight.mk TrafficLightPhase.green
                 ⟨[TrafficLightPhase.red]⟩))
    ∧ TrafficLight.waitForGreen
        (TrafficLight.mk TrafficLightPhase.green ⟨[]⟩) = none :=
  ⟨C4_check_in_caller.1 WaitingVehicles.empty 1 2
      (TrafficLight.mk TrafficLightPhase.green ⟨[TrafficLightPhase.red]⟩) rfl,
   C4_check_in_caller.2 (TrafficLight.mk TrafficLightPhase.green ⟨[]⟩)
      rfl rfl⟩

/-- C10: Intersection::queryStreets(incoming) returns exactly the
connected streets whose ID differs from the incoming street's ID, in their
registration order (the result is a sublist of _streets); it is a pure
read of the intersection state; and when the incoming street is not among
the connected streets, all connected streets are returned. -/
theorem C10_query_streets :
    ∀ (inter : IntersectionStreets) (incoming : Street),
      (∀ t : Street,
        t ∈ inter.queryStreets incoming
          ↔ t ∈ inter.streets ∧ t.id ≠ incoming.id)
      ∧ List.Sublist (inter.queryStreets incoming) inter.streets
      ∧ (incoming ∉ inter.streets →
          inter.queryStreets incoming = inter.streets) := by
  intro inter incoming
  refine ⟨fun t => ?_, ?_, fun hnotin => ?_⟩
  · rw [queryStreets_eq_filter]
    simp only [List.mem_filter, decide_eq_true_iff]
    exact ⟨fun ⟨h1, h2⟩ => ⟨h1, fun h => h2 (h.symm)⟩,
           fun ⟨h1, h2⟩ => ⟨h1, fun h => h2 (h.symm)⟩⟩
  · rw [queryStreets_eq_filter]
    exact List.filter_sublist _
  · rw [queryStreets_eq_filter]
    apply List.filter_eq_self.mpr
    intro t ht
    simp only [decide_eq_true_iff]
    intro hid
    exact hnotin (street_eq_of_id_eq incoming t hid ▸ ht)

/-- C10 witness: the intersection connected to streets with ids 1, 2, 3
queried from the street with id 2, and from the unconnected street with
id 9. -/
theorem C10_query_streets_witness :
    (Street.mk 1 ∈ (IntersectionStreets.mk
        [Street.mk 1, Street.mk 2, Street.mk 3]).queryStreets (Street.mk 2)
      ↔ Street.mk 1 ∈ [Street.mk 1, Street.mk 2, Street.mk 3]
          ∧ (Street.mk 1).id ≠ (Street.mk 2).id) :=
  (C10_query_streets
    (IntersectionStreets.mk [Street.mk 1, Street.mk 2, Street.mk 3])
    (Street.mk 2)).1 (Street.mk 1)

/-- C1: with a non-empty queue (the caller-checked precondition),
WaitingVehicles::permitEntryToFirstInQueue removes exactly the front
(oldest-enqueued) entry and fulfills exactly that entry's ticket; for
entries enqueued in order e1..eN, N successive grants deliver e1..eN in
that order, each ticket fulfilled exactly once. -/
theorem C1_grant_front_fifo :
    (∀ (w : WaitingVehicles) (v t : Nat) (vs ts : List Nat),
       w.vehicles = v :: vs → w.promises = t :: ts →
       w.permitEntryToFirstInQueue = some ((v, t), ⟨vs, ts⟩))
    ∧ (∀ entries : List (Nat × Nat),
        WaitingVehicles.grantSeq (WaitingVehicles.enqueueAll entries)
          entries.length = entries) := by
  constructor
  · intro w v t vs ts hv hp
    obtain ⟨wv, wp⟩ := w
    simp only [WaitingVehicles.vehicles] at hv
    simp only [WaitingVehicles.promises] at hp
    subst hv; subst hp
    rfl
  · have key : ∀ (entries : List (Nat × Nat)) (w : WaitingVehicles),
        (entries.foldl (fun w e => w.pushBack e.1 e.2) w)
          = ⟨w.vehicles ++ entries.map Prod.fst,
             w.promises ++ entries.map Prod.snd⟩ := by
      intro entries
      induction entries with
      | nil => intro w; simp
      | cons e es ih =>
        intro w
        rw [List.foldl_cons, ih]
        simp [WaitingVehicles.pushBack]
    intro entries
    have henq : WaitingVehicles.enqueueAll entries
        = ⟨entries.map Prod.fst, entries.map Prod.snd⟩ := by
      rw [WaitingVehicles.enqueueAll, key]
      rfl
    rw [henq]
    clear henq key
    induction entries with
    | nil => rfl
    | cons e es ih =>
      simp only [List.map_cons, List.length_cons, WaitingVehicles.grantSeq,
        WaitingVehicles.permitEntryToFirstInQueue]
      rw [ih]

/-- C1 witness: the queue holding entries (1,11) then (2,22): the grant
removes the front entry (1,11), and two grants deliver the entries in
enqueue order. -/
theorem C1_grant_front_fifo_witness :
    (WaitingVehicles.mk [1, 2] [11, 22]).permitEntryToFirstInQueue
        = some ((1, 11), ⟨[2], [22]⟩)
    ∧ WaitingVehicles.grantSeq
        (WaitingVehicles.enqueueAll [(1, 11), (2, 22)]) 2
        = [(1, 11), (2, 22)] :=
  ⟨C1_grant_front_fifo.1 (WaitingVehicles.mk [1, 2] [11, 22])
      1 11 [2] [22] rfl rfl,
   C1_grant_front_fifo.2 [(1, 11), (2, 22)]⟩

/-- C3: whenever Intersection::addVehicleToQueue returns, the admission
ticket was fulfilled, the FIFO enqueue happened first (and happens on
every call, independent of the light inputs), the admission wait completed
strictly before the light-phase check, and the phase the call observed was
green: either green already at the check, or a green later received from
the channel after observing red. -/
theorem C3_admission_then_light :
    (∀ (wv : WaitingVehicles) (v t : Nat) (tf : Bool) (tl : TrafficLight),
       (addVehicleToQueue wv v t tf tl).1 = wv.pushBack v t)
    ∧ (∀ (wv : WaitingVehicles) (v t : Nat) (tf : Bool) (tl : TrafficLight)
         (tr : List AdmissionEvent) (tl2 : TrafficLight),
        (addVehicleToQueue wv v t tf tl).2 = some (tr, tl2) →
        tf = true
        ∧ (∃ rest, tr = AdmissionEvent.enqueued
            :: AdmissionEvent.ticketGranted
            :: AdmissionEvent.phaseObserved tl.getCurrentPhase :: rest)
        ∧ (tl.getCurrentPhase = TrafficLightPhase.green →
            tr = [AdmissionEvent.enqueued, AdmissionEvent.ticketGranted,
                  AdmissionEvent.phaseObserved TrafficLightPhase.green]
            ∧ tl2 = tl)
        ∧ (tl.getCurrentPhase = TrafficLightPhase.red →
            tr = [AdmissionEvent.enqueued, AdmissionEvent.ticketGranted,
                  AdmissionEvent.phaseObserved TrafficLightPhase.red,
                  AdmissionEvent.greenReceived]
            ∧ TrafficLightPhase.green ∈ tl.messageQueue.queue)) := by
  constructor
  · intro wv v t tf tl
    cases tf with
    | false => rfl
    | true =>
      simp only [addVehicleToQueue, reduceCtorEq, if_false]
      cases hph : tl.getCurrentPhase with
      | red =>
        simp only [if_pos rfl]
        cases tl.waitForGreen <;> rfl
      | green =>
        simp only [reduceCtorEq, if_false]
  · intro wv v t tf tl tr tl2 hret
    cases tf with
    | false => exact absurd hret (by simp [addVehicleToQueue])
    | true =>
      refine ⟨rfl, ?_⟩
      cases hph : tl.getCurrentPhase with
      | red =>
        simp only [addVehicleToQueue, reduceCtorEq, if_false, hph,
          if_pos] at hret
        cases hwg : tl.waitForGreen with
        | none =>
          rw [hwg] at hret
          exact absurd hret (by simp)
        | some tlg =>
          rw [hwg] at hret
          simp only [Option.some.injEq, Prod.mk.injEq] at hret
          refine ⟨⟨[AdmissionEvent.greenReceived], hret.1.symm⟩,
            fun hgr => TrafficLightPhase.noConfusion hgr,
            fun _ => ⟨hret.1.symm, ?_⟩⟩
          simp only [TrafficLight.waitForGreen] at hwg
          cases haux : TrafficLight.waitForGreenAux tl.messageQueue.queue with
          | none => rw [haux] at hwg; exact absurd hwg (by simp)
          | some rest => exact waitForGreenAux_green_mem _ rest haux
      | green =>
        simp only [addVehicleToQueue, reduceCtorEq, if_false, hph,
          Option.some.injEq, Prod.mk.injEq] at hret
        exact ⟨⟨[], hret.1.symm⟩,
          fun _ => ⟨hret.1.symm, hret.2.symm⟩,
          fun hrd => TrafficLightPhase.noConfusion hrd⟩

/-- C3 witness: the concrete call with a fulfilled ticket against the
light with red phase and channel [red, green]: the returned trace shows
enqueue, then admission, then the phase check, then the green reception. -/
theorem C3_admission_then_light_witness :
    (addVehicleToQueue WaitingVehicles.empty 1 2 true
        (TrafficLight.mk TrafficLightPhase.red
          ⟨[TrafficLightPhase.red, TrafficLightPhase.green]⟩)).2
      = some ([AdmissionEvent.enqueued, AdmissionEvent.ticketGranted,
               AdmissionEvent.phaseObserved TrafficLightPhase.red,
               AdmissionEvent.greenReceived],
              TrafficLight.mk TrafficLightPhase.red ⟨[]⟩)
    ∧ (true = true
       ∧ (∃ rest, [AdmissionEvent.enqueued, AdmissionEvent.ticketGranted,
               AdmissionEvent.phaseObserved TrafficLightPhase.red,
               AdmissionEvent.greenReceived]
           = AdmissionEvent.enqueued :: AdmissionEvent.ticketGranted
             :: AdmissionEvent.phaseObserved
                  (TrafficLight.mk TrafficLightPhase.red
                    ⟨[TrafficLightPhase.red,
                      TrafficLightPhase.green]⟩).getCurrentPhase :: rest)
       ∧ ((TrafficLight.mk TrafficLightPhase.red
              ⟨[TrafficLightPhase.red,
                TrafficLightPhase.green]⟩).getCurrentPhase
            = TrafficLightPhase.green →
           [AdmissionEvent.enqueued, AdmissionEvent.ticketGranted,
            AdmissionEvent.phaseObserved TrafficLightPhase.red,
            AdmissionEvent.greenReceived]
             = [AdmissionEvent.enqueued, AdmissionEvent.ticketGranted,
                AdmissionEvent.phaseObserved TrafficLightPhase.green]
           ∧ TrafficLight.mk TrafficLightPhase.red ⟨[]⟩
               = TrafficLight.mk TrafficLightPhase.red
                   ⟨[TrafficLightPhase.red, TrafficLightPhase.green]⟩)
       ∧ ((TrafficLight.mk TrafficLightPhase.red
              ⟨[TrafficLightPhase.red,
                TrafficLightPhase.green]⟩).getCurrentPhase
            = TrafficLightPhase.red →
           [AdmissionEvent.enqueued, AdmissionEvent.ticketGranted,
            AdmissionEvent.phaseObserved TrafficLightPhase.red,
            AdmissionEvent.greenReceived]
             = [AdmissionEvent.enqueued, AdmissionEvent.ticketGranted,
                AdmissionEvent.phaseObserved TrafficLightPhase.red,
                AdmissionEvent.greenReceived]
           ∧ TrafficLightPhase.green
               ∈ (TrafficLight.mk TrafficLightPhase.red
                   ⟨[TrafficLightPhase.red,
                     TrafficLightPhase.green]⟩).messageQueue.queue)) :=
  ⟨rfl,
   C3_admission_then_light.2 WaitingVehicles.empty 1 2 true
     (TrafficLight.mk TrafficLightPhase.red
       ⟨[TrafficLightPhase.red, TrafficLightPhase.green]⟩)
     [AdmissionEvent.enqueued, AdmissionEvent.ticketGranted,
      AdmissionEvent.phaseObserved TrafficLightPhase.red,
      AdmissionEvent.greenReceived]
     (TrafficLight.mk TrafficLightPhase.red ⟨[]⟩) rfl⟩

/-- The phase held after n toggles, starting from red. -/
def phaseAfter (n : Nat) : TrafficLightPhase :=
  if n % 2 = 0 then TrafficLightPhase.red else TrafficLightPhase.green

theorem togglePhase_phaseAfter (n : Nat) :
    togglePhase (phaseAfter n) = phaseAfter (n + 1) := by
  rcases Nat.mod_two_eq_zero_or_one n with h | h <;>
    simp [phaseAfter, togglePhase, Nat.add_mod, h]

theorem altSeq_succ (n : Nat) :
    LightState.altSeq (n + 1)
      = LightState.altSeq n ++ [togglePhase (phaseAfter n)] := by
  rcases Nat.mod_two_eq_zero_or_one n with h | h <;>
    simp [LightState.altSeq, phaseAfter, togglePhase, h]

/-- The invariant tying the loop state of cycleThroughPhases to the number
of toggles so far. -/
def AltInv (st : LightState) : Prop :=
  ∃ n, st.messageQueue.queue = LightState.altSeq n
    ∧ st.currentPhase = phaseAfter n

theorem altInv_start (r0 t0 : Nat) : AltInv (LightState.start r0 t0) :=
  ⟨0, rfl, rfl⟩

theorem altInv_cycleIteration (st : LightState) (now r : Nat)
    (h : AltInv st) : AltInv (st.cycleIteration now r) := by
  obtain ⟨n, hq, hp⟩ := h
  unfold LightState.cycleIteration
  by_cases hc : st.cycleDuration ≤ now - st.lastUpdate
  · refine ⟨n + 1, ?_, ?_⟩
    · simp only [if_pos hc, MessageQueue.send, hq, hp, altSeq_succ]
    · simp only [if_pos hc, hp, togglePhase_phaseAfter]
  · exact ⟨n, by simp only [if_neg hc]; exact ⟨hq, hp⟩⟩

theorem altInv_run (st : LightState) (obs : List (Nat × Nat))
    (h : AltInv st) : AltInv (st.run obs) := by
  induction obs generalizing st with
  | nil => exact h
  | cons o rest ih =>
    exact ih _ (altInv_cycleIteration st o.1 o.2 h)

/-- C7: in every loop iteration of TrafficLight::cycleThroughPhases whose
elapsed time reaches the current dwell duration, the phase is toggled to
the opposite value, the value sent on the message queue is exactly the new
(post-toggle) phase, a new dwell duration is drawn and the elapsed-time
reference is reset to the current instant; consequently, starting from the
constructor's red phase, the sequence of sent values strictly alternates
starting from green. -/
theorem C7_toggle_send_alternation :
    (∀ (st : LightState) (now r : Nat),
       st.cycleDuration ≤ now - st.lastUpdate →
       (st.cycleIteration now r).currentPhase = togglePhase st.currentPhase
       ∧ (st.cycleIteration now r).messageQueue.queue
           = st.messageQueue.queue ++ [togglePhase st.currentPhase]
       ∧ (st.cycleIteration now r).cycleDuration = drawDuration r
       ∧ (st.cycleIteration now r).lastUpdate = now)
    ∧ togglePhase TrafficLightPhase.red = TrafficLightPhase.green
    ∧ togglePhase TrafficLightPhase.green = TrafficLightPhase.red
    ∧ (∀ (r0 t0 : Nat) (obs : List (Nat × Nat)),
        ∃ n, (LightState.run (LightState.start r0 t0) obs).messageQueue.queue
               = LightState.altSeq n) := by
  refine ⟨fun st now r h => ?_, rfl, rfl, fun r0 t0 obs => ?_⟩
  · simp [LightState.cycleIteration, if_pos h, MessageQueue.send]
  · obtain ⟨n, hq, _⟩ := altInv_run (LightState.start r0 t0) obs
      (altInv_start r0 t0)
    exact ⟨n, hq⟩

/-- C7 witness: from the start state with duration drawn from engine value
0 and stopwatch at 0, the iteration at time 4000 toggles red to green,
sends green, redraws and resets; a two-iteration run has sent the
alternating sequence [green, red]. -/
theorem C7_toggle_send_alternation_witness :
    ((LightState.start 0 0).cycleIteration 4000 0).currentPhase
        = togglePhase (LightState.start 0 0).currentPhase
    ∧ ((LightState.start 0 0).cycleIteration 4000 0).messageQueue.queue
        = (LightState.start 0 0).messageQueue.queue
            ++ [togglePhase (LightState.start 0 0).currentPhase]
    ∧ ((LightState.start 0 0).cycleIteration 4000 0).cycleDuration
        = drawDuration 0
    ∧ ((LightState.start 0 0).cycleIteration 4000 0).lastUpdate = 4000
    ∧ (∃ n, (LightState.run (LightState.start 0 0)
          [(4000, 0), (8000, 0)]).messageQueue.queue
            = LightState.altSeq n) := by
  have h1 := C7_toggle_send_alternation.1 (LightState.start 0 0) 4000 0
    (by decide)
  have h2 := C7_toggle_send_alternation.2.2.2 0 0 [(4000, 0), (8000, 0)]
  exact ⟨h1.1, h1.2.1, h1.2.2.1, h1.2.2.2, h2⟩

/-- C8: every dwell duration the scheduler draws is an integer in
[4000, 6000] — the value drawn at start and every value redrawn during the
run stay in the configured bounds — and a phase toggle occurs only in an
iteration whose measured elapsed time is at least the current drawn
duration (an iteration that changes anything at all satisfies the elapsed
time test). -/
theorem C8_dwell_bounds :
    (∀ r : Nat, 4000 ≤ drawDuration r ∧ drawDuration r ≤ 6000)
    ∧ (∀ (st : LightState) (now r : Nat),
        st.cycleIteration now r ≠ st →
        st.cycleDuration ≤ now - st.lastUpdate)
    ∧ (∀ (r0 t0 : Nat) (obs : List (Nat × Nat)),
        4000 ≤ (LightState.run (LightState.start r0 t0) obs).cycleDuration
        ∧ (LightState.run (LightState.start r0 t0) obs).cycleDuration
            ≤ 6000) := by
  have hdraw : ∀ r : Nat, 4000 ≤ drawDuration r ∧ drawDuration r ≤ 6000 := by
    intro r
    have := Nat.mod_lt r (show 0 < 2001 by norm_num)
    unfold drawDuration
    omega
  refine ⟨hdraw, fun st now r hne => ?_, fun r0 t0 obs => ?_⟩
  · by_contra hc
    exact hne (by unfold LightState.cycleIteration; simp [if_neg hc])
  · have key : ∀ (obs : List (Nat × Nat)) (st : LightState),
        4000 ≤ st.cycleDuration → st.cycleDuration ≤ 6000 →
        4000 ≤ (st.run obs).cycleDuration
          ∧ (st.run obs).cycleDuration ≤ 6000 := by
      intro obs
      induction obs with
      | nil => intro st h1 h2; exact ⟨h1, h2⟩
      | cons o rest ih =>
        intro st h1 h2
        apply ih
        all_goals
          unfold LightState.cycleIteration
          by_cases hc : st.cycleDuration ≤ o.1 - st.lastUpdate
        · simp only [if_pos hc]; exact (hdraw o.2).1
        · simp only [if_neg hc]; exact h1
        · simp only [if_pos hc]; exact (hdraw o.2).2
        · simp only [if_neg hc]; exact h2
    exact key obs (LightState.start r0 t0) (hdraw r0).1 (hdraw r0).2

/-- C8 witness: the duration drawn from engine value 4500 lies in
[4000, 6000]; the start-state iteration at time 4000 changes the state,
and indeed its elapsed time reaches the drawn duration; after a concrete
two-iteration run the current duration is still within bounds. -/
theorem C8_dwell_bounds_witness :
    (4000 ≤ drawDuration 4500 ∧ drawDuration 4500 ≤ 6000)
    ∧ (LightState.start 0 0).cycleDuration ≤ 4000 - (LightState.start 0 0).lastUpdate
    ∧ (4000 ≤ (LightState.run (LightState.start 0 0)
          [(4000, 1), (9000, 2)]).cycleDuration
       ∧ (LightState.run (LightState.start 0 0)
          [(4000, 1), (9000, 2)]).cycleDuration ≤ 6000) :=
  ⟨C8_dwell_bounds.1 4500,
   C8_dwell_bounds.2.1 (LightState.start 0 0) 4000 0 (by decide),
   C8_dwell_bounds.2.2 0 0 [(4000, 1), (9000, 2)]⟩

theorem applyAll_zip (ops : List WVOp) :
    ∀ w : WaitingVehicles,
      w.vehicles.length = w.promises.length →
      WVOp.legalFrom w ops = true →
      (WVOp.applyAll w ops).vehicles.length
          = (WVOp.applyAll w ops).promises.length
      ∧ (WVOp.applyAll w ops).vehicles.zip (WVOp.applyAll w ops).promises
          = (w.vehicles.zip w.promises ++ WVOp.pushedPairs ops).drop
              (WVOp.permitCount ops) := by
  induction ops with
  | nil =>
    intro w hlen _
    simp [WVOp.applyAll, WVOp.pushedPairs, WVOp.permitCount]
    exact hlen
  | cons op ops ih =>
    intro w hlen hleg
    rw [WVOp.legalFrom.eq_def, Bool.and_eq_true] at hleg
    obtain ⟨hop, hrest⟩ := hleg
    cases op with
    | push v t =>
      have hlen2 : (WVOp.apply w (WVOp.push v t)).vehicles.length
          = (WVOp.apply w (WVOp.push v t)).promises.length := by
        simp [WVOp.apply, WaitingVehicles.pushBack, hlen]
      have step := ih (WVOp.apply w (WVOp.push v t)) hlen2 hrest
      refine ⟨step.1, ?_⟩
      have happ : WVOp.applyAll w (WVOp.push v t :: ops)
          = WVOp.applyAll (WVOp.apply w (WVOp.push v t)) ops := rfl
      rw [happ, step.2]
      simp only [WVOp.apply, WaitingVehicles.pushBack, WVOp.pushedPairs,
        WVOp.permitCount]
      rw [List.zip_append hlen]
      simp
    | permit =>
      simp only [decide_eq_true_eq] at hop
      obtain ⟨wv, wp⟩ := w
      cases wv with
      | nil => exact absurd hop (by simp [WaitingVehicles.getSize])
      | cons v vs =>
        cases wp with
        | nil =>
          exact absurd hlen (by simp)
        | cons t ts =>
          simp only [List.length_cons, Nat.succ.injEq] at hlen
          have happly : WVOp.apply ⟨v :: vs, t :: ts⟩ WVOp.permit
              = ⟨vs, ts⟩ := rfl
          have step := ih ⟨vs, ts⟩ (by simpa using hlen)
            (by rw [← happly]; exact hrest)
          have happ : WVOp.applyAll ⟨v :: vs, t :: ts⟩ (WVOp.permit :: ops)
              = WVOp.applyAll ⟨vs, ts⟩ ops := by
            rw [WVOp.applyAll, List.foldl_cons, happly]
            rfl
          refine ⟨by rw [happ]; exact step.1, ?_⟩
          rw [happ, step.2]
          simp only [WVOp.pushedPairs, WVOp.permitCount,
            List.zip_cons_cons, List.cons_append, List.drop_succ_cons]

/-- C9: after every legal sequence of pushBack and
permitEntryToFirstInQueue operations (each permit applied to a non-empty
queue) starting from the empty WaitingVehicles, the _vehicles and
_promises vectors have equal length, getSize returns that common length,
and the vectors correspond index by index: their zip is exactly the
enqueued (vehicle, ticket) pairs minus the granted prefix, so the
entry at each index of one belongs with the same index of the other. -/
theorem C9_parallel_vectors_invariant :
    ∀ ops : List WVOp,
      WVOp.legalFrom WaitingVehicles.empty ops = true →
      (WVOp.applyAll WaitingVehicles.empty ops).vehicles.length
          = (WVOp.applyAll WaitingVehicles.empty ops).promises.length
      ∧ (WVOp.applyAll WaitingVehicles.empty ops).getSize
          = (WVOp.applyAll WaitingVehicles.empty ops).promises.length
      ∧ (WVOp.applyAll WaitingVehicles.empty ops).vehicles.zip
            (WVOp.applyAll WaitingVehicles.empty ops).promises
          = (WVOp.pushedPairs ops).drop (WVOp.permitCount ops) := by
  intro ops hleg
  have h := applyAll_zip ops WaitingVehicles.empty rfl hleg
  exact ⟨h.1, h.1, by simpa using h.2⟩

/-- C9 witness: the legal sequence push (1,11), push (2,22), permit,
push (3,33): the final queue pairs vehicles [2,3] with tickets [22,33]
index by index, and getSize is 2. -/
theorem C9_parallel_vectors_invariant_witness :
    WVOp.legalFrom WaitingVehicles.empty
        [WVOp.push 1 11, WVOp.push 2 22, WVOp.permit, WVOp.push 3 33] = true
    ∧ ((WVOp.applyAll WaitingVehicles.empty
          [WVOp.push 1 11, WVOp.push 2 22, WVOp.permit,
           WVOp.push 3 33]).vehicles.length
        = (WVOp.applyAll WaitingVehicles.empty
          [WVOp.push 1 11, WVOp.push 2 22, WVOp.permit,
           WVOp.push 3 33]).promises.length
       ∧ (WVOp.applyAll WaitingVehicles.empty
          [WVOp.push 1 11, WVOp.push 2 22, WVOp.permit,
           WVOp.push 3 33]).getSize
        = (WVOp.applyAll WaitingVehicles.empty
          [WVOp.push 1 11, WVOp.push 2 22, WVOp.permit,
           WVOp.push 3 33]).promises.length
       ∧ (WVOp.applyAll WaitingVehicles.empty
          [WVOp.push 1 11, WVOp.push 2 22, WVOp.permit,
           WVOp.push 3 33]).vehicles.zip
            (WVOp.applyAll WaitingVehicles.empty
          [WVOp.push 1 11, WVOp.push 2 22, WVOp.permit,
           WVOp.push 3 33]).promises
        = (WVOp.pushedPairs
            [WVOp.push 1 11, WVOp.push 2 22, WVOp.permit,
             WVOp.push 3 33]).drop
            (WVOp.permitCount
              [WVOp.push 1 11, WVOp.push 2 22, WVOp.permit,
               WVOp.push 3 33])) :=
  ⟨by decide,
   C9_parallel_vectors_invariant
     [WVOp.push 1 11, WVOp.push 2 22, WVOp.permit, WVOp.push 3 33]
     (by decide)⟩

/-- The two parallel vectors of the waiting queue have equal length. -/
def lenEq (s : IntersectionState) : Prop :=
  s.waitingVehicles.vehicles.length = s.waitingVehicles.promises.length

theorem dispatchStep_of_blocked (s : IntersectionState)
    (h : s.isBlocked = true) : s.dispatchStep = s := by
  have hneg : ¬(0 < s.waitingVehicles.getSize ∧ s.isBlocked = false) := by
    rintro ⟨-, hb⟩
    rw [h] at hb
    exact Bool.noConfusion hb
  unfold IntersectionState.dispatchStep
  rw [if_neg hneg]

theorem lenEq_dispatchStep (s : IntersectionState) (h : lenEq s) :
    lenEq s.dispatchStep := by
  by_cases hc : 0 < s.waitingVehicles.getSize ∧ s.isBlocked = false
  · unfold IntersectionState.dispatchStep
    rw [if_pos hc]
    obtain ⟨⟨wv, wp⟩, b, g⟩ := s
    cases wv with
    | nil => exact absurd hc.1 (by simp [WaitingVehicles.getSize])
    | cons v vs =>
      cases wp with
      | nil => exact absurd h (by simp [lenEq])
      | cons t ts =>
        simp only [lenEq, List.length_cons, Nat.succ.injEq] at h
        simpa [lenEq, WaitingVehicles.permitEntryToFirstInQueue] using h
  · unfold IntersectionState.dispatchStep
    rw [if_neg hc]
    exact h

theorem IStep_lenEq (s s2 : IntersectionState) (h : IStep s s2)
    (hl : lenEq s) : lenEq s2 := by
  cases h with
  | dispatch => exact lenEq_dispatchStep s hl
  | depart => exact hl

theorem IReach_lenEq (s0 s : IntersectionState) (h : IReach s0 s)
    (h0 : lenEq s0) : lenEq s := by
  induction h with
  | refl => exact h0
  | tail _ hstep ih => exact IStep_lenEq _ _ hstep ih

theorem dispatchStep_grant (s : IntersectionState) (hl : lenEq s)
    (hg : 0 < s.waitingVehicles.getSize) (hb : s.isBlocked = false) :
    ∃ e rest, s.waitingVehicles.permitEntryToFirstInQueue = some (e, rest)
      ∧ s.dispatchStep = ⟨rest, true, s.grants ++ [e]⟩ := by
  obtain ⟨⟨wv, wp⟩, b, g⟩ := s
  cases wv with
  | nil => exact absurd hg (by simp [WaitingVehicles.getSize])
  | cons v vs =>
    cases wp with
    | nil => exact absurd hl (by simp [lenEq])
    | cons t ts =>
      refine ⟨(v, t), ⟨vs, ts⟩, rfl, ?_⟩
      simp only [IntersectionState.isBlocked] at hb
      subst hb
      unfold IntersectionState.dispatchStep
      rw [if_pos ⟨hg, rfl⟩]
      rfl

/-- C2: along every run of the step relation whose steps are one
dispatch-loop iteration (Intersection::processVehicleQueue body) or one
departure notification (Intersection::vehicleHasLeft), started from a
constructor-initial state: the blocked flag goes false to true only in a
dispatch step that also grants a ticket (possible only with a non-empty
queue and blocked previously false), it goes true to false only via a
departure notification, and a dispatch iteration taken while blocked is
true changes nothing — in particular it makes no grant. -/
theorem C2_blocked_flag_protocol :
    ∀ s0 s s2 : IntersectionState,
      IntersectionState.Init s0 → IReach s0 s → IStep s s2 →
      ((s.isBlocked = false ∧ s2.isBlocked = true) →
         (s2 = s.dispatchStep ∧ 0 < s.waitingVehicles.getSize
          ∧ ∃ e, s2.grants = s.grants ++ [e]))
      ∧ ((s.isBlocked = true ∧ s2.isBlocked = false) →
          s2 = s.vehicleHasLeft)
      ∧ (s.isBlocked = true → s.dispatchStep = s) := by
  intro s0 s s2 hinit hreach hstep
  have hlen : lenEq s := IReach_lenEq s0 s hreach hinit.2.2
  refine ⟨?_, ?_, fun hb => dispatchStep_of_blocked s hb⟩
  · rintro ⟨hf, ht⟩
    cases hstep with
    | dispatch =>
      by_cases hg : 0 < s.waitingVehicles.getSize
      · obtain ⟨e, rest, hperm, hds⟩ := dispatchStep_grant s hlen hg hf
        exact ⟨rfl, hg, ⟨e, by rw [hds]⟩⟩
      · have heq : s.dispatchStep = s := by
          unfold IntersectionState.dispatchStep
          rw [if_neg (fun hc => hg hc.1)]
        rw [heq] at ht
        rw [hf] at ht
        exact Bool.noConfusion ht
    | depart =>
      exact absurd ht (by simp [IntersectionState.vehicleHasLeft])
  · rintro ⟨ht, hf⟩
    cases hstep with
    | dispatch =>
      rw [dispatchStep_of_blocked s ht] at hf
      rw [ht] at hf
      exact Bool.noConfusion hf
    | depart => rfl

/-- C2 witness: from the concrete initial state with one waiting entry
(vehicle 5, ticket 7), unblocked and no grants, the dispatch step taken
there satisfies all three transition properties. -/
theorem C2_blocked_flag_protocol_witness :
    (((IntersectionState.mk ⟨[5], [7]⟩ false []).isBlocked = false
        ∧ ((IntersectionState.mk ⟨[5], [7]⟩ false
              []).dispatchStep).isBlocked = true) →
       ((IntersectionState.mk ⟨[5], [7]⟩ false []).dispatchStep
           = (IntersectionState.mk ⟨[5], [7]⟩ false []).dispatchStep
        ∧ 0 < (IntersectionState.mk ⟨[5], [7]⟩ false
              []).waitingVehicles.getSize
        ∧ ∃ e, ((IntersectionState.mk ⟨[5], [7]⟩ false
              []).dispatchStep).grants
            = (IntersectionState.mk ⟨[5], [7]⟩ false []).grants ++ [e]))
    ∧ (((IntersectionState.mk ⟨[5], [7]⟩ false []).isBlocked = true
        ∧ ((IntersectionState.mk ⟨[5], [7]⟩ false
              []).dispatchStep).isBlocked = false) →
        (IntersectionState.mk ⟨[5], [7]⟩ false []).dispatchStep
          = (IntersectionState.mk ⟨[5], [7]⟩ false []).vehicleHasLeft)
    ∧ ((IntersectionState.mk ⟨[5], [7]⟩ false []).isBlocked = true →
        (IntersectionState.mk ⟨[5], [7]⟩ false []).dispatchStep
          = IntersectionState.mk ⟨[5], [7]⟩ false []) :=
  C2_blocked_flag_protocol
    (IntersectionState.mk ⟨[5], [7]⟩ false [])
    (IntersectionState.mk ⟨[5], [7]⟩ false [])
    ((IntersectionState.mk ⟨[5], [7]⟩ false []).dispatchStep)
    ⟨rfl, rfl, rfl⟩ Relation.ReflTransGen.refl
    (IStep.dispatch (IntersectionState.mk ⟨[5], [7]⟩ false []))

end TrafficSim
